import Mathlib

/-!
Shallow embedding of `AccountLocker.py` (Windows account locker).

Time-of-day values are modelled as seconds since midnight (Python compares
`datetime.time` values lexicographically on (hour, minute, second, microsecond),
which is order-isomorphic to seconds-since-midnight).  Instants are modelled as
a day number plus a time-of-day; day numbering is chosen with day 0 a Monday so
that `day % 7` coincides with Python's `datetime.weekday()` (Monday = 0,
Sunday = 6).  The day checkboxes in `SetupDialog.init_ui` enumerate
Mon..Sun as indices 0..6, matching that convention.
-/

/-- An instant: an absolute day number plus time-of-day in seconds since
midnight.  `day % 7` is the Python weekday (Monday = 0). -/
structure Instant where
  day : Nat
  tod : Nat
deriving DecidableEq, Repr

/-- Python weekday of an instant (Monday = 0 .. Sunday = 6). -/
def Instant.weekday (t : Instant) : Nat := t.day % 7

/-- Strict comparison of instants, as Python compares timezone-aware
datetimes (lexicographic on (date, time-of-day)). -/
def Instant.ltb (a b : Instant) : Bool :=
  a.day < b.day || (a.day == b.day && a.tod < b.tod)

/-- A schedule, as stored in the config: lock/unlock times-of-day (from the
"HH:MM" strings), the enabled weekday indices (`days`), and the master
enable flag. -/
structure Schedule where
  lockTime : Nat
  unlockTime : Nat
  days : List Nat
  enabled : Bool
deriving DecidableEq, Repr

/-- The in-window test from `LockerApp.check_lock` (lines 380-383) — the same
computation appears verbatim in `SetupDialog.update_countdown` (lines 233-236):
if `lock_t < unlock_t` then `lock_t <= now_t < unlock_t`, else
`now_t >= lock_t or now_t < unlock_t`. -/
def inWindowRaw (s : Schedule) (nowT : Nat) : Bool :=
  if s.lockTime < s.unlockTime then
    decide (s.lockTime ≤ nowT) && decide (nowT < s.unlockTime)
  else
    decide (s.lockTime ≤ nowT) || decide (nowT < s.unlockTime)

/-- `isInWindow` of the spec: `check_lock` returns without locking when the
schedule is disabled or today's weekday is not in `days` (line 369), and
otherwise locks exactly when `in_window` holds. -/
def isInWindow (s : Schedule) (now : Instant) : Bool :=
  s.enabled && s.days.contains now.weekday && inWindowRaw s now.tod

/-- Whether one `check_lock` tick invokes `lock_workstation` (lines 385-387):
the lock action fires precisely when `isInWindow` holds; the method keeps no
state between ticks. -/
def check_lock (s : Schedule) (now : Instant) : Bool :=
  isInWindow s now

/-- Number of `lock_workstation` invocations over a sequence of poll ticks,
each tick running `check_lock` (the timer fires it every 60 s). -/
def lockInvocations (s : Schedule) : List Instant → Nat
  | [] => 0
  | t :: ts => (if check_lock s t then 1 else 0) + lockInvocations s ts

/-- One iteration of the scan loop in `SetupDialog.update_countdown`
(lines 240-256) at day offset `i`: skip days not in `days`; build the
candidate at the target time-of-day (`unlock` when in-window, `lock`
otherwise) on day `now.day + i`; apply the wrap-case one-day advance when
in-window, `lock_t >= unlock_t`, the candidate weekday equals today's, and
`now_t >= unlock_t`; accept the candidate only when it is strictly after
`now`. -/
def candidate (s : Schedule) (now : Instant) (inW : Bool) (i : Nat) : Option Instant :=
  let d := (now.weekday + i) % 7
  if s.days.contains d then
    let target := if inW then s.unlockTime else s.lockTime
    let base : Instant := ⟨now.day + i, target⟩
    let base :=
      if inW && decide (s.unlockTime ≤ s.lockTime) && (d == now.weekday)
          && decide (s.unlockTime ≤ now.tod) then
        ⟨base.day + 1, base.tod⟩
      else base
    if Instant.ltb now base then some base else none
  else none

/-- `nextTransition` of the spec, from `SetupDialog.update_countdown`:
the method first returns "N/A" when the schedule is disabled or today's
weekday is not in `days` (lines 224-226); otherwise it scans day offsets
0..6 and reports the first accepted candidate, or "N/A" when none is
accepted (lines 238-259). -/
def nextTransition (s : Schedule) (now : Instant) : Option Instant :=
  if s.enabled && s.days.contains now.weekday then
    (List.range 7).findSome? (candidate s now (inWindowRaw s now.tod))
  else none

/-- Written from the spec's words (claim C4), for refinement against
`nextTransition`: target `unlockTime` when in-window and `lockTime`
otherwise, scan forward up to 7 days over enabled days, advance by one day
exactly when in-window, the window wraps, the candidate day is today, and
`nowT >= unlockTime`; return the first candidate strictly after `now`.
Unlike the code, this description has no early "N/A" exit on a disabled
schedule or a disabled current weekday. -/
def nextTransitionSpec (s : Schedule) (now : Instant) : Option Instant :=
  (List.range 7).findSome? fun i =>
    let d := (now.weekday + i) % 7
    if s.days.contains d then
      let target := if inWindowRaw s now.tod then s.unlockTime else s.lockTime
      let base : Instant := ⟨now.day + i, target⟩
      let base :=
        if inWindowRaw s now.tod && decide (s.unlockTime ≤ s.lockTime)
            && (d == now.weekday) && decide (s.unlockTime ≤ now.tod) then
          ⟨base.day + 1, base.tod⟩
        else base
      if Instant.ltb now base then some base else none
    else none

/-- Outcome of one reference-time fetch inside `LockerApp.sync_time`:
the HTTP request may raise (network unreachable), the response may lack a
`Date` header, the header may fail to parse (`strptime` raises), or it
parses to an external instant. -/
inductive FetchResult where
  | netError
  | noDateHeader
  | malformedDate
  | ok (external : Int)
deriving DecidableEq, Repr

/-- The mutable offset owned by `LockerApp` (seconds; may be negative). -/
structure SyncState where
  offset : Int
deriving DecidableEq, Repr

/-- `LockerApp.sync_time` (lines 345-360): on a parsed `Date` header the
offset becomes `external - sysLocal` (`dt_local - sys_local`); an exception
(network or parse failure) is caught and logged, leaving the offset
unchanged; a missing `Date` header leaves the offset unchanged without
logging an error.  The second component records whether an error was
logged.  The body never raises: every branch returns. -/
def sync_time (st : SyncState) (r : FetchResult) (sysLocal : Int) : SyncState × Bool :=
  match r with
  | .ok external => ({ offset := external - sysLocal }, false)
  | .netError => (st, true)
  | .noDateHeader => (st, false)
  | .malformedDate => (st, true)

/-- `LockerApp.current_time` (lines 362-363): local wall-clock plus the
stored offset. -/
def current_time (st : SyncState) (sysLocal : Int) : Int :=
  sysLocal + st.offset

/-- `LockerApp.verify` (lines 396-423), parameterized over the one-way
digest function (`hash_password`, SHA-256 from `hashlib`): compare the
digest of the candidate with the stored digest; on equality reset the
failed-attempt counter to 0 and report success; otherwise increment the
counter and report failure.  Returns (success, new counter). -/
def verify (hash : String → String) (storedHash : String) (pw : String)
    (failedAttempts : Nat) : Bool × Nat :=
  if hash pw == storedHash then (true, 0) else (false, failedAttempts + 1)

/-! Concrete schedules and instants for the spec's scenarios. -/

/-- Scenario schedule: lock 18:00, unlock 06:00 (wrap), all days, enabled. -/
def wrapSched : Schedule :=
  { lockTime := 18 * 3600, unlockTime := 6 * 3600
    days := [0, 1, 2, 3, 4, 5, 6], enabled := true }

/-- Monday 20:00 (day 0 is a Monday). -/
def mon2000 : Instant := ⟨0, 20 * 3600⟩

/-- Monday 20:01, the next poll tick after `mon2000`. -/
def mon2001 : Instant := ⟨0, 20 * 3600 + 60⟩

/-- Monday 05:59. -/
def mon0559 : Instant := ⟨0, 5 * 3600 + 59 * 60⟩

/-- Scenario schedule: lock 09:00, unlock 17:00 (non-wrap),
days {1,2,3,4,5} (Tue..Sat under the Monday = 0 numbering), enabled. -/
def weekSched : Schedule :=
  { lockTime := 9 * 3600, unlockTime := 17 * 3600
    days := [1, 2, 3, 4, 5], enabled := true }

/-- Saturday 10:00 (day 5 of the Monday-based week). -/
def sat1000 : Instant := ⟨5, 10 * 3600⟩

/-- Sunday 10:00 (day 6). -/
def sun1000 : Instant := ⟨6, 10 * 3600⟩

/-- Degenerate schedule with `lockTime = unlockTime = 06:00`, Mondays only. -/
def degenSched : Schedule :=
  { lockTime := 6 * 3600, unlockTime := 6 * 3600, days := [0], enabled := true }

/-- Monday 06:00. -/
def mon0600 : Instant := ⟨0, 6 * 3600⟩

/-- Tuesday 06:00 (day 1). -/
def tue0600 : Instant := ⟨1, 6 * 3600⟩

/-- Saturday 17:00 (day 5). -/
def sat1700 : Instant := ⟨5, 17 * 3600⟩

/-! Theorems for the claims. -/

/-- Boolean day-membership agrees with propositional membership. -/
theorem contains_eq_mem {a : Nat} {l : List Nat} : l.contains a = true ↔ a ∈ l := by
  simp [List.contains, List.elem_iff]

/-- Shared characterization of `isInWindow`, used by several claim proofs:
false when disabled or the weekday is not enabled; otherwise governed by
the non-wrapping / wrapping comparisons of the source. -/
theorem isInWindow_cases (s : Schedule) (now : Instant) :
    (s.enabled = false ∨ now.weekday ∉ s.days → isInWindow s now = false)
    ∧ (s.enabled = true → now.weekday ∈ s.days →
        (s.lockTime < s.unlockTime →
          (isInWindow s now = true ↔ s.lockTime ≤ now.tod ∧ now.tod < s.unlockTime))
        ∧ (s.unlockTime ≤ s.lockTime →
          (isInWindow s now = true ↔ s.lockTime ≤ now.tod ∨ now.tod < s.unlockTime))) := by
  refine ⟨?_, ?_⟩
  · rintro (he | hd)
    · simp [isInWindow, he]
    · simp [isInWindow]
      intro _ hmem
      exact absurd hmem hd
  · intro he hd
    constructor
    · intro hlt
      simp [isInWindow, he, hd, inWindowRaw, hlt]
    · intro hge
      have hnlt : ¬ s.lockTime < s.unlockTime := Nat.not_lt.mpr hge
      simp [isInWindow, he, hd, inWindowRaw, hnlt]

/-- C1: `isInWindow` is false whenever the schedule is disabled or the
weekday of `now` is not in `days`; otherwise, when `lockTime < unlockTime`
it holds iff `lockTime <= nowT < unlockTime`, and when
`lockTime >= unlockTime` (wrapping) it holds iff `nowT >= lockTime` or
`nowT < unlockTime`. -/
theorem check_lock_window_characterization (s : Schedule) (now : Instant) :
    (s.enabled = false ∨ now.weekday ∉ s.days → isInWindow s now = false)
    ∧ (s.enabled = true → now.weekday ∈ s.days →
        (s.lockTime < s.unlockTime →
          (isInWindow s now = true ↔ s.lockTime ≤ now.tod ∧ now.tod < s.unlockTime))
        ∧ (s.unlockTime ≤ s.lockTime →
          (isInWindow s now = true ↔ s.lockTime ≤ now.tod ∨ now.tod < s.unlockTime))) :=
  isInWindow_cases s now

/-- Witness for `check_lock_window_characterization` at the wrap scenario
schedule and Monday 20:00. -/
theorem check_lock_window_characterization_witness :
    isInWindow wrapSched mon2000 = true := by
  have h := check_lock_window_characterization wrapSched mon2000
  exact ((h.2 (by decide) (by decide)).2 (by decide)).mpr (by decide)

/-- C2 counterexample: the claim asserts that `isInWindow` is false at
`nowT = unlockTime` in every wrapping case (`lockTime >= unlockTime`), but
for `degenSched` (`lockTime = unlockTime = 06:00`, an enabled Monday-only
schedule) at Monday 06:00 the weekday is enabled, `nowT` equals
`unlockTime`, and `isInWindow` is true: `now_t >= lock_t` holds since
`lock_t = unlock_t = now_t`. -/
theorem boundary_unlock_degenerate_counterexample :
    degenSched.enabled = true
    ∧ mon0600.weekday ∈ degenSched.days
    ∧ mon0600.tod = degenSched.unlockTime
    ∧ degenSched.unlockTime ≤ degenSched.lockTime
    ∧ isInWindow degenSched mon0600 = true := by
  refine ⟨rfl, ?_, rfl, by decide, by decide⟩
  decide

/-- C2 amended: on an enabled schedule and an enabled weekday, `isInWindow`
is true at `nowT = lockTime` (inclusive lower bound, wrap and non-wrap
alike); at `nowT = unlockTime` it is false whenever
`lockTime ≠ unlockTime` (exclusive upper bound in the non-wrap and
strict-wrap cases), but true when `lockTime = unlockTime`. -/
theorem boundary_behavior_amended (s : Schedule) (now : Instant)
    (he : s.enabled = true) (hd : now.weekday ∈ s.days) :
    (now.tod = s.lockTime → isInWindow s now = true)
    ∧ (now.tod = s.unlockTime → s.lockTime ≠ s.unlockTime → isInWindow s now = false)
    ∧ (now.tod = s.unlockTime → s.lockTime = s.unlockTime → isInWindow s now = true) := by
  have h := isInWindow_cases s now
  have h2 := h.2 he hd
  refine ⟨?_, ?_, ?_⟩
  · intro ht
    rcases Nat.lt_or_ge s.lockTime s.unlockTime with hlt | hge
    · exact ((h2.1 hlt).mpr ⟨Nat.le_of_eq ht.symm, ht ▸ hlt⟩)
    · exact ((h2.2 hge).mpr (Or.inl (Nat.le_of_eq ht.symm)))
  · intro ht hne
    rcases Nat.lt_or_ge s.lockTime s.unlockTime with hlt | hge
    · cases hw : isInWindow s now
      · rfl
      · rcases (h2.1 hlt).mp hw with ⟨_, hlt2⟩
        exact absurd (ht ▸ hlt2) (Nat.lt_irrefl _)
    · cases hw : isInWindow s now
      · rfl
      · rcases (h2.2 hge).mp hw with hge2 | hlt2
        · have hlu : s.lockTime ≤ s.unlockTime := ht ▸ hge2
          exact absurd (Nat.le_antisymm hlu hge) hne
        · exact absurd (ht ▸ hlt2) (Nat.lt_irrefl _)
  · intro ht heq
    exact (h2.2 (Nat.le_of_eq heq.symm)).mpr (Or.inl (Nat.le_of_eq (heq.trans ht.symm)))

/-- Witness for `boundary_behavior_amended` at the wrap scenario schedule:
Monday 18:00 equals `lockTime`, so `isInWindow` is true there. -/
theorem boundary_behavior_amended_witness :
    isInWindow wrapSched (⟨0, 18 * 3600⟩ : Instant) = true :=
  (boundary_behavior_amended wrapSched ⟨0, 18 * 3600⟩ (by decide) (by decide)).1 rfl

/-- C9: when `lockTime = unlockTime` the schedule is classified as wrapping
and the window covers the entire day: on an enabled schedule and enabled
weekday, `isInWindow` is true at every time-of-day, including the instant
equal to `unlockTime` itself. -/
theorem degenerate_window_covers_whole_day (s : Schedule) (now : Instant)
    (he : s.enabled = true) (hd : now.weekday ∈ s.days)
    (heq : s.lockTime = s.unlockTime) :
    isInWindow s now = true := by
  have h2 := (isInWindow_cases s now).2 he hd
  refine (h2.2 (Nat.le_of_eq heq.symm)).mpr ?_
  rcases Nat.lt_or_ge now.tod s.unlockTime with hlt | hge
  · exact Or.inr hlt
  · exact Or.inl (heq ▸ hge)

/-- Witness for `degenerate_window_covers_whole_day`: `degenSched` at
Monday 06:00. -/
theorem degenerate_window_covers_whole_day_witness :
    isInWindow degenSched mon0600 = true :=
  degenerate_window_covers_whole_day degenSched mon0600 (by decide) (by decide) rfl

/-- C10: day membership is evaluated only on the calendar day of `now`:
for a wrapping schedule and an instant with `nowT < unlockTime` whose
weekday is not enabled, `isInWindow` is false even when the preceding
weekday (on which the window was entered) is enabled — the wrapped window
is cut off at midnight when the following day is disabled. -/
theorem wrapped_window_cut_at_midnight (s : Schedule) (now : Instant)
    (_hwrap : s.unlockTime ≤ s.lockTime) (_ht : now.tod < s.unlockTime)
    (hd : now.weekday ∉ s.days) (_hprev : (now.weekday + 6) % 7 ∈ s.days) :
    isInWindow s now = false :=
  (isInWindow_cases s now).1 (Or.inr hd)

/-- Witness for `wrapped_window_cut_at_midnight`: lock 18:00 / unlock 06:00
with only Monday enabled, at Tuesday 05:00 — Monday evening's window is cut
off at Tuesday midnight. -/
theorem wrapped_window_cut_at_midnight_witness :
    isInWindow ⟨18 * 3600, 6 * 3600, [0], true⟩ (⟨1, 5 * 3600⟩ : Instant) = false :=
  wrapped_window_cut_at_midnight ⟨18 * 3600, 6 * 3600, [0], true⟩ ⟨1, 5 * 3600⟩
    (by decide) (by decide) (by decide) (by decide)

/-- C3 counterexample: the claim asserts that while `isInWindow` remains
true on consecutive ticks the controller does not re-invoke the lock
action, but `check_lock` keeps no state between ticks: at Monday 20:00 and
the next tick Monday 20:01 both instants are in the wrap-schedule window,
the lock action fires on the second tick as well, and a two-tick run of a
single window entry invokes the lock twice rather than once. -/
theorem lock_reinvoked_counterexample :
    isInWindow wrapSched mon2000 = true
    ∧ isInWindow wrapSched mon2001 = true
    ∧ check_lock wrapSched mon2001 = true
    ∧ lockInvocations wrapSched [mon2000, mon2001] = 2 := by
  refine ⟨by decide, by decide, by decide, by decide⟩

/-- C3 amended: the controller performs no edge detection: every
`check_lock` tick invokes the lock action exactly when `isInWindow` holds
at that tick, so over any sequence of poll ticks the number of lock
invocations equals the number of in-window ticks (consecutive in-window
ticks each re-invoke the action). -/
theorem lock_invoked_every_inwindow_tick :
    (∀ (s : Schedule) (t : Instant), check_lock s t = isInWindow s t)
    ∧ (∀ (s : Schedule) (ts : List Instant),
        lockInvocations s ts = ts.countP (fun t => isInWindow s t)) := by
  refine ⟨fun s t => rfl, fun s ts => ?_⟩
  induction ts with
  | nil => rfl
  | cons t ts ih =>
    simp [lockInvocations, List.countP_cons, ih, check_lock]
    exact Nat.add_comm _ _

/-- C5 counterexample: with lock 09:00, unlock 17:00, `days = [1,2,3,4,5]`
and the schedule enabled, the claim asserts `isInWindow` is false at
Saturday 10:00 and `nextTransition` is Monday 09:00; but under the code's
Monday = 0 weekday numbering Saturday is weekday 5, which IS in
`[1,2,3,4,5]`, so `isInWindow` is true and `nextTransition` is Saturday
17:00 (the unlock instant), not Monday 09:00. -/
theorem saturday_scenario_counterexample :
    sat1000.weekday = 5
    ∧ isInWindow weekSched sat1000 = true
    ∧ nextTransition weekSched sat1000 = some sat1700 := by
  refine ⟨rfl, by decide, by decide⟩

/-- C5 amended: at Saturday 10:00 the schedule's window is active
(Saturday = weekday 5 is enabled) and `nextTransition` is Saturday 17:00;
and when the weekday of `now` is not enabled — e.g. Sunday 10:00 — the
evaluator reports no upcoming transition at all (the code returns "N/A"
before scanning) rather than scanning forward to the next enabled day. -/
theorem saturday_scenario_amended :
    (isInWindow weekSched sat1000 = true
      ∧ nextTransition weekSched sat1000 = some sat1700)
    ∧ (isInWindow weekSched sun1000 = false
      ∧ nextTransition weekSched sun1000 = none)
    ∧ (∀ (s : Schedule) (now : Instant), now.weekday ∉ s.days →
        nextTransition s now = none) := by
  refine ⟨⟨by decide, by decide⟩, ⟨by decide, by decide⟩, ?_⟩
  intro s now hd
  simp [nextTransition]
  intro _ hmem
  exact absurd hmem hd

/-- Witness for `saturday_scenario_amended`: the universally quantified
conjunct applied at the weekday schedule and Sunday 10:00. -/
theorem saturday_scenario_amended_witness :
    nextTransition weekSched sun1000 = none :=
  saturday_scenario_amended.2.2 weekSched sun1000 (by decide)

/-- C4: whenever the early "N/A" exit does not apply (schedule enabled and
today's weekday enabled), `nextTransition` coincides with the claim's
description `nextTransitionSpec` — target `unlockTime` when in-window and
`lockTime` otherwise, scan up to 7 days over enabled days, with the
one-day advance applied exactly when in-window, wrapping, candidate day is
today, and `nowT >= unlockTime`.  Concretely, for lock 18:00 / unlock
06:00 on all days: at Monday 20:00 `isInWindow` is true and
`nextTransition` is Tuesday 06:00; at Monday 05:59 `isInWindow` is true
and `nextTransition` is Monday 06:00. -/
theorem nextTransition_wrap_scenarios :
    (∀ (s : Schedule) (now : Instant), s.enabled = true → now.weekday ∈ s.days →
        nextTransition s now = nextTransitionSpec s now)
    ∧ (isInWindow wrapSched mon2000 = true
        ∧ nextTransition wrapSched mon2000 = some tue0600)
    ∧ (isInWindow wrapSched mon0559 = true
        ∧ nextTransition wrapSched mon0559 = some mon0600) := by
  refine ⟨?_, ⟨by decide, by decide⟩, ⟨by decide, by decide⟩⟩
  intro s now he hd
  have hc : s.days.contains now.weekday = true := contains_eq_mem.mpr hd
  unfold nextTransition nextTransitionSpec candidate
  rw [he, hc]
  rfl

/-- Witness for `nextTransition_wrap_scenarios`: the refinement conjunct
applied at the wrap scenario schedule and Monday 20:00. -/
theorem nextTransition_wrap_scenarios_witness :
    nextTransition wrapSched mon2000 = nextTransitionSpec wrapSched mon2000 :=
  nextTransition_wrap_scenarios.1 wrapSched mon2000 (by decide) (by decide)

/-- A value produced by `List.findSome?` comes from some list element. -/
theorem findSome_eq_some_exists {α β : Type} (f : α → Option β) :
    ∀ (l : List α) (b : β), l.findSome? f = some b → ∃ a, f a = some b := by
  intro l
  induction l with
  | nil => intro b h; simp [List.findSome?] at h
  | cons x xs ih =>
    intro b h
    rw [List.findSome?_cons] at h
    cases hfx : f x with
    | some y =>
      rw [hfx] at h
      exact ⟨x, hfx.trans h⟩
    | none =>
      rw [hfx] at h
      exact ih b h

/-- An accepted loop candidate is strictly after `now`: the loop only
assigns `next_dt = base` under `if base > now`. -/
theorem candidate_strictly_future (s : Schedule) (now : Instant) (inW : Bool)
    (i : Nat) (b : Instant) (h : candidate s now inW i = some b) :
    Instant.ltb now b = true := by
  simp only [candidate] at h
  repeat' split at h
  all_goals first
    | (injection h with hb; subst hb; assumption)
    | (injection h)

/-- C6: whenever `nextTransition` returns an instant rather than "N/A",
that instant is strictly greater than `now`. -/
theorem nextTransition_strictly_future (s : Schedule) (now : Instant)
    (t : Instant) (h : nextTransition s now = some t) :
    Instant.ltb now t = true := by
  unfold nextTransition at h
  split at h
  · obtain ⟨i, hi⟩ := findSome_eq_some_exists _ _ _ h
    exact candidate_strictly_future s now _ i t hi
  · exact absurd h (by simp)

/-- Witness for `nextTransition_strictly_future`: at Monday 20:00 the wrap
schedule's next transition, Tuesday 06:00, is strictly after `now`. -/
theorem nextTransition_strictly_future_witness :
    Instant.ltb mon2000 tue0600 = true :=
  nextTransition_strictly_future wrapSched mon2000 tue0600 (by decide)

/-- C7: a failed refresh (network error or unparseable `Date` header)
leaves the stored offset unchanged and logs the failure — `sync_time`
catches the exception, so nothing reaches the caller — and a later
`current_time` call applies the pre-refresh offset to the local instant;
a successful refresh with external instant `E` fetched at local instant
`sysLocal` stores `offset = E - sysLocal`, so `current_time` immediately
after returns `E`. -/
theorem sync_time_offset_contract (st : SyncState) (sysLocal : Int) :
    (∀ r : FetchResult, r = FetchResult.netError ∨ r = FetchResult.malformedDate →
        (sync_time st r sysLocal).1 = st
        ∧ (sync_time st r sysLocal).2 = true
        ∧ ∀ l : Int, current_time (sync_time st r sysLocal).1 l = l + st.offset)
    ∧ (∀ E : Int, (sync_time st (FetchResult.ok E) sysLocal).1.offset = E - sysLocal
        ∧ current_time (sync_time st (FetchResult.ok E) sysLocal).1 sysLocal = E) := by
  constructor
  · rintro r (rfl | rfl) <;> exact ⟨rfl, rfl, fun l => rfl⟩
  · intro E
    refine ⟨rfl, ?_⟩
    show sysLocal + (E - sysLocal) = E
    omega

/-- Witness for `sync_time_offset_contract`: a network failure at offset 5
keeps the offset and logs an error. -/
theorem sync_time_offset_contract_witness :
    (sync_time ⟨5⟩ FetchResult.netError 100).1 = (⟨5⟩ : SyncState) :=
  ((sync_time_offset_contract ⟨5⟩ 100).1 FetchResult.netError (Or.inl rfl)).1

/-- C8: `verify` succeeds exactly when the digest of the candidate equals
the stored digest; success resets the failed-attempt counter to 0, failure
increments it; and the reported result is independent of the counter's
value — there is no lockout-after-N-failures policy. -/
theorem verify_contract (hash : String → String) (stored pw : String) (n m : Nat) :
    ((verify hash stored pw n).1 = true ↔ hash pw = stored)
    ∧ (hash pw = stored → verify hash stored pw n = (true, 0))
    ∧ (hash pw ≠ stored → verify hash stored pw n = (false, n + 1))
    ∧ (verify hash stored pw n).1 = (verify hash stored pw m).1 := by
  by_cases h : hash pw = stored <;> simp [verify, h]

/-- Witness for `verify_contract`: with the identity digest, password "a"
against stored digest "a" succeeds and resets the counter. -/
theorem verify_contract_witness :
    verify (fun s => s) "a" "a" 3 = (true, 0) :=
  (verify_contract (fun s => s) "a" "a" 3 0).2.1 rfl
